import Mathlib

/-!
Verification of the simulation engine of the Game-Of-Life repository
(`game.py`, `src/presets.py`), shallowly embedded in Lean 4.

The grid is a row-major list of rows of `Bool` (`true` = alive = 1,
`false` = dead = 0), matching the numpy `uint8` array whose entries the
code keeps in {0,1}.  Python `set[int]` becomes `Finset ℕ`; Python ints
used as coordinates become `Int` (they may be negative); Python `%` on
ints is `Int.emod` and `//` is `Int.fdiv`.
-/

namespace GameOfLife

/-- State of `GameOfLifeModel` (game.py): width `w`, height `h`,
grid `grid[h][w]` (row-major: entry at row `y`, column `x` is
`grid[y][x]`), rule sets `survive`/`born`, and the generation counter. -/
structure Model where
  w : Nat
  h : Nat
  grid : List (List Bool)
  survive : Finset Nat
  born : Finset Nat
  generation : Nat
deriving DecidableEq

/-- Read the grid at row `r`, column `c` (out-of-range reads default to
dead; all reads performed by the engine are in range). -/
def Model.cell (m : Model) (r c : Nat) : Bool :=
  (m.grid.getD r []).getD c false

/-- `GameOfLifeModel.__init__(w, h)`: all-dead `h × w` grid,
`survive = {2,3}`, `born = {3}`, `generation = 0`. -/
def Model.init (w h : Nat) : Model :=
  { w := w
    h := h
    grid := List.replicate h (List.replicate w false)
    survive := {2, 3}
    born := {3}
    generation := 0 }

/-- The eight neighbor offsets `(dy, dx)` in the order generated by
`for dy in (-1,0,1) for dx in (-1,0,1) if not (dx == 0 and dy == 0)`. -/
def offsets : List (Int × Int) :=
  [(-1,-1),(-1,0),(-1,1),(0,-1),(0,1),(1,-1),(1,0),(1,1)]

/-- The neighbor count computed by `tick()` in game.py:
`sum(np.roll(np.roll(grid, dy, axis=0), dx, axis=1) for dy, dx ...)`.
Rolling the grid by `dy` along rows and `dx` along columns puts
`grid[(r-dy) % h][(c-dx) % w]` at position `(r,c)`, so the summed array
has at `(r,c)` the sum of the rolled entries over the eight offsets. -/
def Model.ncount (m : Model) (r c : Nat) : Nat :=
  (offsets.map (fun p =>
    if m.cell ((((r : Int) - p.1) % (m.h : Int)).toNat)
              ((((c : Int) - p.2) % (m.w : Int)).toNat)
    then 1 else 0)).sum

/-- The neighbor count as the specification words it: live cells among
`((r+dr) mod H, (c+dc) mod W)` for `dr,dc ∈ {-1,0,1}`, `(dr,dc) ≠ (0,0)`. -/
def Model.nspec (m : Model) (r c : Nat) : Nat :=
  (offsets.map (fun p =>
    if m.cell ((((r : Int) + p.1) % (m.h : Int)).toNat)
              ((((c : Int) + p.2) % (m.w : Int)).toNat)
    then 1 else 0)).sum

/-- New state of cell `(r,c)` after one tick:
`surv = (grid == 1) & isin(ncount, survive)`,
`born = (grid == 0) & isin(ncount, born)`, new cell is `surv | born`. -/
def Model.cellNew (m : Model) (r c : Nat) : Bool :=
  (m.cell r c && decide (m.ncount r c ∈ m.survive)) ||
  (!(m.cell r c) && decide (m.ncount r c ∈ m.born))

/-- `GameOfLifeModel.tick()`: rebuild the `h × w` grid from the
neighbor counts of the pre-tick snapshot and increment `generation`.
The numpy code computes `ncount`, `surv` and `born` wholly from the old
grid before `self.grid[:] = 0; self.grid[surv | born] = 1`, so the update
is synchronous. -/
def Model.tick (m : Model) : Model :=
  { m with
    grid := (List.range m.h).map (fun r =>
              (List.range m.w).map (fun c => m.cellNew r c)),
    generation := m.generation + 1 }

/-- `GameOfLifeModel.toggle_cell(x, y)`:
`if 0 <= x < self.w and 0 <= y < self.h: self.grid[y, x] ^= 1`. -/
def Model.toggle_cell (m : Model) (x y : Int) : Model :=
  if 0 ≤ x ∧ x < (m.w : Int) ∧ 0 ≤ y ∧ y < (m.h : Int) then
    let row := m.grid.getD y.toNat []
    { m with grid := m.grid.set y.toNat (row.set x.toNat (!(row.getD x.toNat false))) }
  else m

/-- `GameOfLifeModel.reset()`: `self.grid.fill(0)` (kill every cell in
place, keeping the array's shape) and `self.generation = 0`. -/
def Model.reset (m : Model) : Model :=
  { m with grid := m.grid.map (fun row => row.map (fun _ => false)),
           generation := 0 }

/-- The value of the Python digit character `c` (`int(c)` for
`c ∈ '0'..'9'`). -/
def digitVal (c : Char) : Nat := c.toNat - 48

/-- `{int(c) for c in s}`: the set of digit values of the characters of
`s`. -/
def digitSet (s : List Char) : Finset Nat :=
  (s.map digitVal).toFinset

/-- Python `str.split('/')`: cut the character list at every `'/'`,
keeping empty pieces. -/
def splitSlash : List Char → List (List Char)
  | [] => [[]]
  | ch :: rest =>
    if ch = '/' then [] :: splitSlash rest
    else
      match splitSlash rest with
      | [] => [[ch]]
      | piece :: pieces => (ch :: piece) :: pieces

/-- `GameOfLifeModel.set_rules(rule_str)`:
`s, b = rule_str.split('/')` (raises unless the split has exactly two
parts), `survive = {int(c) for c in s}`, `born = {int(c) for c in b}`
(`int(c)` raises on a non-digit character), then `self.reset()`.  The
raising paths are modelled as `none`. -/
def Model.set_rules (m : Model) (rule_str : String) : Option Model :=
  match splitSlash rule_str.toList with
  | [s, b] =>
    if s.all Char.isDigit && b.all Char.isDigit then
      some (Model.reset { m with survive := digitSet s, born := digitSet b })
    else none
  | _ => none

/-- Set the grid entry at row `r`, column `c` alive
(`model.grid[oy + y, ox + x] = 1` in presets.py with in-range indices;
numpy raises on an out-of-range index, which the claims exclude). -/
def setCell (g : List (List Bool)) (r c : Int) : List (List Bool) :=
  if 0 ≤ r ∧ 0 ≤ c then
    g.set r.toNat ((g.getD r.toNat []).set c.toNat true)
  else g

/-- `_apply_coords(model, coords, width, height)` from presets.py:
`model.reset()`, `ox = (model.w - width) // 2`,
`oy = (model.h - height) // 2`, then set `grid[oy + y, ox + x] = 1`
for each `(x, y)` in `coords`. -/
def Model.apply_coords (m : Model) (coords : List (Int × Int))
    (width height : Int) : Model :=
  let m0 := m.reset
  let ox : Int := ((m.w : Int) - width).fdiv 2
  let oy : Int := ((m.h : Int) - height).fdiv 2
  { m0 with grid :=
      coords.foldl (fun g p => setCell g (oy + p.2) (ox + p.1)) m0.grid }

/-- The glider coordinates of `glider` in presets.py. -/
def gliderCoords : List (Int × Int) :=
  [(1,0), (2,1), (0,2), (1,2), (2,2)]

/-- `glider(model)` from presets.py: apply the glider coordinates with
`width=3, height=3`. -/
def Model.glider (m : Model) : Model :=
  m.apply_coords gliderCoords 3 3

/-- Well-formed grid: `h` rows, each of length `w` (the shape invariant
the numpy array `np.zeros((h, w))` maintains throughout). -/
def Model.WF (m : Model) : Prop :=
  m.grid.length = m.h ∧ ∀ row ∈ m.grid, row.length = m.w

instance (m : Model) : Decidable m.WF := by
  unfold Model.WF; infer_instance

/-! ### List helper lemmas -/

lemma getD_map_range {α : Type} (f : Nat → α) (n i : Nat) (d : α) (h : i < n) :
    ((List.range n).map f).getD i d = f i := by
  have hlen : i < ((List.range n).map f).length := by simpa using h
  rw [List.getD_eq_getElem _ _ hlen]
  simp

lemma getD_set_self {α : Type} (l : List α) (i : Nat) (a d : α) (h : i < l.length) :
    (l.set i a).getD i d = a := by
  have h1 : i < (l.set i a).length := by simpa using h
  rw [List.getD_eq_getElem _ _ h1]
  exact List.getElem_set_self _

lemma getD_set_ne {α : Type} (l : List α) (i j : Nat) (a d : α) (h : i ≠ j) :
    (l.set i a).getD j d = l.getD j d := by
  by_cases hj : j < l.length
  · have h1 : j < (l.set i a).length := by simpa using hj
    rw [List.getD_eq_getElem _ _ h1, List.getD_eq_getElem _ _ hj]
    exact List.getElem_set_ne h _
  · rw [List.getD_eq_default _ _ (by simpa using Nat.le_of_not_lt hj),
        List.getD_eq_default _ _ (by simpa using Nat.le_of_not_lt hj)]

lemma set_getD_self {α : Type} (l : List α) (i : Nat) (d : α) :
    l.set i (l.getD i d) = l := by
  induction l generalizing i with
  | nil => rfl
  | cons a l ih =>
    cases i with
    | zero => rfl
    | succ n => simpa using ih n

lemma getD_map_const_false (g : List (List Bool)) (r c : Nat) :
    ((g.map (fun row => row.map (fun _ => false))).getD r []).getD c false = false := by
  by_cases hr : r < g.length
  · have hrow : (g.map (fun row => row.map (fun _ => false))).getD r [] =
        (g[r]).map (fun _ => false) := by
      rw [List.getD_eq_getElem _ _ (by simpa using hr)]
      simp
    rw [hrow]
    by_cases hc : c < (g[r]).length
    · rw [List.getD_eq_getElem _ _ (by simpa using hc)]
      simp
    · exact List.getD_eq_default _ _ (by simpa using Nat.le_of_not_lt hc)
  · have hrow : (g.map (fun row => row.map (fun _ => false))).getD r [] = [] :=
      List.getD_eq_default _ _ (by simpa using Nat.le_of_not_lt hr)
    rw [hrow]
    simp

/-! ### The roll-based neighbor count agrees with the spec's formula -/

lemma offsets_map_neg : offsets.map (fun p => (-p.1, -p.2)) = offsets.reverse := by
  decide

lemma ncount_eq_nspec (m : Model) (r c : Nat) : m.ncount r c = m.nspec r c := by
  unfold Model.ncount Model.nspec
  have h : (offsets.map fun p =>
      if m.cell ((((r : Int) + p.1) % (m.h : Int)).toNat)
                ((((c : Int) + p.2) % (m.w : Int)).toNat)
      then (1 : Nat) else 0) =
      ((offsets.map (fun p => (-p.1, -p.2))).map fun p =>
      if m.cell ((((r : Int) - p.1) % (m.h : Int)).toNat)
                ((((c : Int) - p.2) % (m.w : Int)).toNat)
      then (1 : Nat) else 0) := by
    rw [List.map_map]
    apply List.map_congr_left
    intro p _
    simp [sub_neg_eq_add]
  rw [h, offsets_map_neg, List.map_reverse, List.sum_reverse]

lemma tick_cell (m : Model) (r c : Nat) (hr : r < m.h) (hc : c < m.w) :
    m.tick.cell r c = m.cellNew r c := by
  show ((((List.range m.h).map (fun r =>
      (List.range m.w).map (fun c => m.cellNew r c))).getD r []).getD c false) = _
  rw [getD_map_range _ _ _ _ hr, getD_map_range _ _ _ _ hc]

/-! ### Helpers for `set_rules` -/

lemma all_congr_mem {l1 l2 : List Char} (h : ∀ c, c ∈ l1 ↔ c ∈ l2)
    (p : Char → Bool) : l1.all p = l2.all p := by
  by_cases h1 : l1.all p = true
  · rw [h1]
    symm
    rw [List.all_eq_true] at h1 ⊢
    intro c hc
    exact h1 c ((h c).mpr hc)
  · have h2 : ¬l2.all p = true := by
      intro h2
      apply h1
      rw [List.all_eq_true] at h2 ⊢
      intro c hc
      exact h2 c ((h c).mp hc)
    rw [Bool.not_eq_true] at h1 h2
    rw [h1, h2]

lemma digitSet_congr {l1 l2 : List Char} (h : ∀ c, c ∈ l1 ↔ c ∈ l2) :
    digitSet l1 = digitSet l2 := by
  unfold digitSet
  ext n
  simp only [List.mem_toFinset, List.mem_map]
  constructor
  · rintro ⟨c, hc, rfl⟩
    exact ⟨c, (h c).mp hc, rfl⟩
  · rintro ⟨c, hc, rfl⟩
    exact ⟨c, (h c).mpr hc, rfl⟩

/-- The rule-range invariant the specification states: both rule sets
contain only integers in `[0, 8]`. -/
def rulesOK (m : Model) : Prop :=
  (∀ n ∈ m.survive, n ≤ 8) ∧ (∀ n ∈ m.born, n ≤ 8)

instance (m : Model) : Decidable (rulesOK m) := by
  unfold rulesOK; infer_instance

/-! ### Claims -/

/-- Claim C1: `tick()` replaces the grid so that cell `(r,c)` is alive in the
new grid iff (it was alive in the pre-tick grid and its toroidal 8-neighbor
count is in `survive`) or (it was dead and the count is in `born`), where the
count (`Model.nspec`) is taken at `((r+dr) mod H, (c+dc) mod W)` for
`dr,dc ∈ {-1,0,1}`, `(dr,dc) ≠ (0,0)`, over the pre-tick snapshot
(synchronous semantics), and `tick()` increments `generation` by exactly 1. -/
theorem C1_tick_correct (m : Model) (r c : Nat) (hr : r < m.h) (hc : c < m.w) :
    (m.tick.cell r c = true ↔
      ((m.cell r c = true ∧ m.nspec r c ∈ m.survive) ∨
       (m.cell r c = false ∧ m.nspec r c ∈ m.born))) ∧
    m.tick.generation = m.generation + 1 := by
  refine ⟨?_, rfl⟩
  rw [tick_cell m r c hr hc]
  unfold Model.cellNew
  rw [ncount_eq_nspec]
  cases hcell : m.cell r c <;> simp [hcell]

/-- Witness for C1 at the all-dead 3×3 grid, cell (0,0). -/
theorem C1_tick_correct_witness :
    ((0 : Nat) < (Model.init 3 3).h ∧ (0 : Nat) < (Model.init 3 3).w) ∧
    (((Model.init 3 3).tick.cell 0 0 = true ↔
      (((Model.init 3 3).cell 0 0 = true ∧
          (Model.init 3 3).nspec 0 0 ∈ (Model.init 3 3).survive) ∨
       ((Model.init 3 3).cell 0 0 = false ∧
          (Model.init 3 3).nspec 0 0 ∈ (Model.init 3 3).born))) ∧
     (Model.init 3 3).tick.generation = (Model.init 3 3).generation + 1) :=
  ⟨⟨by decide, by decide⟩,
   C1_tick_correct (Model.init 3 3) 0 0 (by decide) (by decide)⟩

/-- Claim C3: for out-of-range coordinates (`x` outside `[0,W)` or `y`
outside `[0,H)`), `toggle_cell(x,y)` leaves the whole engine state
unchanged. -/
theorem C3_toggle_out_of_range (m : Model) (x y : Int)
    (h : x < 0 ∨ (m.w : Int) ≤ x ∨ y < 0 ∨ (m.h : Int) ≤ y) :
    m.toggle_cell x y = m := by
  have hneg : ¬(0 ≤ x ∧ x < (m.w : Int) ∧ 0 ≤ y ∧ y < (m.h : Int)) := by omega
  unfold Model.toggle_cell
  rw [if_neg hneg]

/-- Witness for C3 at the 2×2 grid with `x = -1`. -/
theorem C3_toggle_out_of_range_witness :
    ((-1 : Int) < 0 ∨ ((Model.init 2 2).w : Int) ≤ -1 ∨ (0 : Int) < 0 ∨
      ((Model.init 2 2).h : Int) ≤ 0) ∧
    (Model.init 2 2).toggle_cell (-1) 0 = Model.init 2 2 :=
  ⟨by decide, C3_toggle_out_of_range (Model.init 2 2) (-1) 0 (by decide)⟩

/-- Claim C4: `reset()` kills every cell and sets `generation = 0`, while
`survive` and `born` are unchanged. -/
theorem C4_reset_correct (m : Model) :
    (∀ r c, m.reset.cell r c = false) ∧
    m.reset.generation = 0 ∧
    m.reset.survive = m.survive ∧ m.reset.born = m.born :=
  ⟨fun r c => getD_map_const_false m.grid r c, rfl, rfl, rfl⟩

/-- Claim C2: for every engine state and every valid `'S/B'` rule string of
digit characters, `set_rules` succeeds, replaces `survive` with the digit
set of `S` and `born` with the digit set of `B`, and performs the
equivalent of `reset()`: all cells dead and `generation = 0`, regardless of
the prior grid and generation. -/
theorem C2_set_rules_correct (m : Model) (rule : String) (s b : List Char)
    (hsplit : splitSlash rule.toList = [s, b])
    (hs : ∀ ch ∈ s, ch.isDigit) (hb : ∀ ch ∈ b, ch.isDigit) :
    ∃ m', m.set_rules rule = some m' ∧
      m'.survive = digitSet s ∧ m'.born = digitSet b ∧
      (∀ r c, m'.cell r c = false) ∧ m'.generation = 0 := by
  have hsall : s.all Char.isDigit = true := List.all_eq_true.mpr hs
  have hball : b.all Char.isDigit = true := List.all_eq_true.mpr hb
  have heq : m.set_rules rule =
      some (Model.reset { m with survive := digitSet s, born := digitSet b }) := by
    unfold Model.set_rules
    rw [hsplit]
    simp [hsall, hball]
  exact ⟨_, heq, rfl, rfl, fun r c => getD_map_const_false m.grid r c, rfl⟩

/-- Witness for C2: `set_rules("23/3")` on a 2×2 grid with a live cell. -/
theorem C2_set_rules_correct_witness :
    (splitSlash "23/3".toList = [['2', '3'], ['3']] ∧
     (∀ ch ∈ ['2', '3'], ch.isDigit) ∧ (∀ ch ∈ ['3'], ch.isDigit)) ∧
    (∃ m', ((Model.init 2 2).toggle_cell 0 0).set_rules "23/3" = some m' ∧
      m'.survive = digitSet ['2', '3'] ∧ m'.born = digitSet ['3'] ∧
      (∀ r c, m'.cell r c = false) ∧ m'.generation = 0) :=
  ⟨⟨by decide, by decide, by decide⟩,
   C2_set_rules_correct ((Model.init 2 2).toggle_cell 0 0) "23/3"
     ['2', '3'] ['3'] (by decide) (by decide) (by decide)⟩

/-- Claim C10: the result of `set_rules` depends only on the set of
distinct characters on each side of the `'/'`: rule strings whose survive
parts and born parts have the same character sets produce identical engine
states from the same prior state. -/
theorem C10_set_rules_extensional (m : Model) (r1 r2 : String)
    (s1 b1 s2 b2 : List Char)
    (h1 : splitSlash r1.toList = [s1, b1])
    (h2 : splitSlash r2.toList = [s2, b2])
    (hs : s1.toFinset = s2.toFinset) (hb : b1.toFinset = b2.toFinset) :
    m.set_rules r1 = m.set_rules r2 := by
  have hsm : ∀ c, c ∈ s1 ↔ c ∈ s2 := fun c => by
    rw [← List.mem_toFinset, hs, List.mem_toFinset]
  have hbm : ∀ c, c ∈ b1 ↔ c ∈ b2 := fun c => by
    rw [← List.mem_toFinset, hb, List.mem_toFinset]
  unfold Model.set_rules
  rw [h1, h2]
  dsimp only
  rw [all_congr_mem hsm, all_congr_mem hbm, digitSet_congr hsm, digitSet_congr hbm]

/-- Witness for C10: `"23/3"` and `"32/3"` give identical states. -/
theorem C10_set_rules_extensional_witness :
    (splitSlash "23/3".toList = [['2', '3'], ['3']] ∧
     splitSlash "32/3".toList = [['3', '2'], ['3']] ∧
     (['2', '3'] : List Char).toFinset = (['3', '2'] : List Char).toFinset ∧
     (['3'] : List Char).toFinset = (['3'] : List Char).toFinset) ∧
    (Model.init 2 2).set_rules "23/3" = (Model.init 2 2).set_rules "32/3" :=
  ⟨⟨by decide, by decide, by decide, by decide⟩,
   C10_set_rules_extensional (Model.init 2 2) "23/3" "32/3"
     ['2', '3'] ['3'] ['3', '2'] ['3'] (by decide) (by decide) (by decide) (by decide)⟩

/-- Counterexample for C5 as stated: `set_rules` applied to the digit
string `"9/3"` puts `9` into `survive`, so the invariant `[0,8]` is not
preserved by every operation on every digit input. -/
theorem C5_counterexample :
    ¬(∀ (m : Model) (rule : String) (m' : Model),
        rulesOK m → m.set_rules rule = some m' → rulesOK m') := by
  intro h
  have hs : (Model.init 1 1).set_rules "9/3" =
      some (Model.reset { Model.init 1 1 with
        survive := digitSet ['9'], born := digitSet ['3'] }) := by decide
  have hok := h _ _ _ (by decide) hs
  revert hok
  decide

/-- Claim C5, amended: the `[0,8]` rule invariant holds at construction and
is preserved by `tick`, `toggle_cell` and `reset`; `set_rules` preserves it
provided every digit of the rule string has value at most 8 (the code never
validates, so e.g. `set_rules("9/3")` yields `survive = {9}`). -/
theorem C5_rules_invariant :
    (∀ w h, rulesOK (Model.init w h)) ∧
    (∀ m : Model, rulesOK m → rulesOK m.tick) ∧
    (∀ (m : Model) (x y : Int), rulesOK m → rulesOK (m.toggle_cell x y)) ∧
    (∀ m : Model, rulesOK m → rulesOK m.reset) ∧
    (∀ (m : Model) (rule : String) (s b : List Char),
      splitSlash rule.toList = [s, b] →
      (∀ ch ∈ s, digitVal ch ≤ 8) → (∀ ch ∈ b, digitVal ch ≤ 8) →
      ∀ m', m.set_rules rule = some m' → rulesOK m') := by
  refine ⟨?_, fun m hm => hm, ?_, fun m hm => hm, ?_⟩
  · intro w h
    constructor
    · intro n hn
      simp [Model.init] at hn
      rcases hn with rfl | rfl <;> norm_num
    · intro n hn
      simp [Model.init] at hn
      subst hn
      norm_num
  · intro m x y hm
    unfold Model.toggle_cell
    split
    · exact hm
    · exact hm
  · intro m rule s b hsplit hs hb m' hm'
    unfold Model.set_rules at hm'
    rw [hsplit] at hm'
    dsimp only at hm'
    by_cases hdig : s.all Char.isDigit && b.all Char.isDigit
    · rw [if_pos hdig] at hm'
      have hm'' := Option.some.inj hm'
      subst hm''
      constructor
      · intro n hn
        rcases List.mem_map.mp (List.mem_toFinset.mp hn) with ⟨ch, hch, rfl⟩
        exact hs ch hch
      · intro n hn
        rcases List.mem_map.mp (List.mem_toFinset.mp hn) with ⟨ch, hch, rfl⟩
        exact hb ch hch
    · rw [if_neg hdig] at hm'
      exact absurd hm' (by simp)

/-- Witness for C5 (amended): the invariant after `set_rules("23/3")`. -/
theorem C5_rules_invariant_witness :
    (rulesOK (Model.init 1 1) ∧
     splitSlash "23/3".toList = [['2', '3'], ['3']] ∧
     (∀ ch ∈ ['2', '3'], digitVal ch ≤ 8) ∧ (∀ ch ∈ ['3'], digitVal ch ≤ 8)) ∧
    (rulesOK (Model.init 4 4) ∧
     rulesOK (Model.reset { Model.init 1 1 with
       survive := digitSet ['2', '3'], born := digitSet ['3'] })) :=
  ⟨⟨by decide, by decide, by decide, by decide⟩,
   ⟨C5_rules_invariant.1 4 4,
    C5_rules_invariant.2.2.2.2 (Model.init 1 1) "23/3" ['2', '3'] ['3']
      (by decide) (by decide) (by decide) _ (by decide)⟩⟩

end GameOfLife

namespace GameOfLife

/-- The row update performed by an in-range `toggle_cell`: xor the entry
at column `xn` with 1. -/
def flipRow (row : List Bool) (xn : Nat) : List Bool :=
  row.set xn (!(row.getD xn false))

lemma toggle_cell_in_range (m : Model) (x y : Int)
    (hcond : 0 ≤ x ∧ x < (m.w : Int) ∧ 0 ≤ y ∧ y < (m.h : Int)) :
    m.toggle_cell x y =
      { m with grid := m.grid.set y.toNat (flipRow (m.grid.getD y.toNat []) x.toNat) } := by
  unfold Model.toggle_cell
  rw [if_pos hcond]
  rfl

lemma flipRow_flipRow (row : List Bool) (xn : Nat) (h : xn < row.length) :
    flipRow (flipRow row xn) xn = row := by
  unfold flipRow
  rw [getD_set_self _ _ _ _ h, Bool.not_not, List.set_set, set_getD_self]

lemma set_flip_twice (g : List (List Bool)) (yn xn : Nat)
    (hy : yn < g.length) (hx : xn < (g.getD yn []).length) :
    (g.set yn (flipRow (g.getD yn []) xn)).set yn
      (flipRow ((g.set yn (flipRow (g.getD yn []) xn)).getD yn []) xn) = g := by
  rw [getD_set_self _ _ _ _ hy]
  rw [flipRow_flipRow _ _ hx]
  rw [List.set_set, set_getD_self]

/-- Claim C7: toggling the same coordinate twice restores the engine state
exactly (for out-of-range coordinates both calls are no-ops), and a single
in-range `toggle_cell(x,y)` flips the cell at column `x`, row `y`. -/
theorem C7_toggle_involution (m : Model) (hwf : m.WF) (x y : Int) :
    (m.toggle_cell x y).toggle_cell x y = m ∧
    (0 ≤ x ∧ x < (m.w : Int) ∧ 0 ≤ y ∧ y < (m.h : Int) →
      (m.toggle_cell x y).cell y.toNat x.toNat = !(m.cell y.toNat x.toNat)) := by
  by_cases hcond : 0 ≤ x ∧ x < (m.w : Int) ∧ 0 ≤ y ∧ y < (m.h : Int)
  case neg =>
    have h1 : m.toggle_cell x y = m := by
      unfold Model.toggle_cell
      rw [if_neg hcond]
    rw [h1, h1]
    exact ⟨rfl, fun h => absurd h hcond⟩
  case pos =>
    have hylt : y.toNat < m.h := by omega
    have hxlt : x.toNat < m.w := by omega
    have hglen : y.toNat < m.grid.length := hwf.1 ▸ hylt
    have hrmem : m.grid.getD y.toNat [] ∈ m.grid := by
      rw [List.getD_eq_getElem _ _ hglen]
      exact List.getElem_mem _
    have hrlen : x.toNat < (m.grid.getD y.toNat []).length := by
      rw [hwf.2 _ hrmem]
      exact hxlt
    rw [toggle_cell_in_range m x y hcond]
    rw [toggle_cell_in_range
      { m with grid := m.grid.set y.toNat (flipRow (m.grid.getD y.toNat []) x.toNat) }
      x y hcond]
    constructor
    · exact congrArg (fun g => Model.mk m.w m.h g m.survive m.born m.generation)
        (set_flip_twice m.grid y.toNat x.toNat hglen hrlen)
    · intro _
      show ((m.grid.set y.toNat (flipRow (m.grid.getD y.toNat []) x.toNat)).getD
        y.toNat []).getD x.toNat false = !((m.grid.getD y.toNat []).getD x.toNat false)
      rw [getD_set_self _ _ _ _ hglen]
      unfold flipRow
      rw [getD_set_self _ _ _ _ hrlen]

/-- Witness for C7 on the 2×2 all-dead grid at `(x,y) = (0,1)`. -/
theorem C7_toggle_involution_witness :
    (Model.init 2 2).WF ∧
    ((((Model.init 2 2).toggle_cell 0 1).toggle_cell 0 1 = Model.init 2 2) ∧
     ((0 : Int) ≤ 0 ∧ (0 : Int) < ((Model.init 2 2).w : Int) ∧ (0 : Int) ≤ 1 ∧
        (1 : Int) < ((Model.init 2 2).h : Int) →
      ((Model.init 2 2).toggle_cell 0 1).cell (1 : Int).toNat (0 : Int).toNat =
        !((Model.init 2 2).cell (1 : Int).toNat (0 : Int).toNat))) :=
  ⟨by decide, C7_toggle_involution (Model.init 2 2) (by decide) 0 1⟩

/-- Claim C9: an in-range `toggle_cell(x,y)` changes at most the single
cell at row `y`, column `x`; every other cell and the `generation`,
`survive`, `born`, `w`, `h` fields are unchanged. -/
theorem C9_toggle_frame (m : Model) (hwf : m.WF) (x y : Int)
    (hcond : 0 ≤ x ∧ x < (m.w : Int) ∧ 0 ≤ y ∧ y < (m.h : Int)) :
    (∀ r c : Nat, ¬(r = y.toNat ∧ c = x.toNat) →
      (m.toggle_cell x y).cell r c = m.cell r c) ∧
    (m.toggle_cell x y).generation = m.generation ∧
    (m.toggle_cell x y).survive = m.survive ∧
    (m.toggle_cell x y).born = m.born ∧
    (m.toggle_cell x y).w = m.w ∧ (m.toggle_cell x y).h = m.h := by
  have hylt : y.toNat < m.h := by omega
  have hglen : y.toNat < m.grid.length := hwf.1 ▸ hylt
  rw [toggle_cell_in_range m x y hcond]
  refine ⟨?_, rfl, rfl, rfl, rfl, rfl⟩
  intro r c hrc
  show ((m.grid.set y.toNat (flipRow (m.grid.getD y.toNat []) x.toNat)).getD
    r []).getD c false = m.cell r c
  by_cases hr : r = y.toNat
  · subst hr
    have hc : x.toNat ≠ c := fun h => hrc ⟨rfl, h.symm⟩
    rw [getD_set_self _ _ _ _ hglen]
    unfold flipRow
    rw [getD_set_ne _ _ _ _ _ hc]
    rfl
  · have hy : y.toNat ≠ r := fun h => hr h.symm
    rw [getD_set_ne _ _ _ _ _ hy]
    rfl

/-- Witness for C9 on the 3×3 all-dead grid at `(x,y) = (1,2)`. -/
theorem C9_toggle_frame_witness :
    ((Model.init 3 3).WF ∧
     ((0 : Int) ≤ 1 ∧ (1 : Int) < ((Model.init 3 3).w : Int) ∧ (0 : Int) ≤ 2 ∧
       (2 : Int) < ((Model.init 3 3).h : Int))) ∧
    ((∀ r c : Nat, ¬(r = (2 : Int).toNat ∧ c = (1 : Int).toNat) →
      ((Model.init 3 3).toggle_cell 1 2).cell r c = (Model.init 3 3).cell r c) ∧
     ((Model.init 3 3).toggle_cell 1 2).generation = (Model.init 3 3).generation ∧
     ((Model.init 3 3).toggle_cell 1 2).survive = (Model.init 3 3).survive ∧
     ((Model.init 3 3).toggle_cell 1 2).born = (Model.init 3 3).born ∧
     ((Model.init 3 3).toggle_cell 1 2).w = (Model.init 3 3).w ∧
     ((Model.init 3 3).toggle_cell 1 2).h = (Model.init 3 3).h) :=
  ⟨⟨by decide, by decide⟩, C9_toggle_frame (Model.init 3 3) (by decide) 1 2 (by decide)⟩

end GameOfLife

namespace GameOfLife

/-- Shape of a grid value: `h` rows, each row of length `w`. -/
def gridWF (g : List (List Bool)) (h w : Nat) : Prop :=
  g.length = h ∧ ∀ i < h, (g.getD i []).length = w

/-- The horizontal centering offset `ox = (model.w - width) // 2`. -/
def centerX (m : Model) (width : Int) : Int := ((m.w : Int) - width).fdiv 2

/-- The vertical centering offset `oy = (model.h - height) // 2`. -/
def centerY (m : Model) (height : Int) : Int := ((m.h : Int) - height).fdiv 2

lemma gridWF_setCell {g : List (List Bool)} {h w : Nat} (hg : gridWF g h w)
    (r c : Int) (hr0 : 0 ≤ r) (hrh : r < (h : Int)) (hc0 : 0 ≤ c) (hcw : c < (w : Int)) :
    gridWF (setCell g r c) h w := by
  unfold setCell
  rw [if_pos ⟨hr0, hc0⟩]
  refine ⟨by simpa using hg.1, fun i hi => ?_⟩
  by_cases hir : i = r.toNat
  · rw [hir, getD_set_self _ _ _ _ (by rw [hg.1]; omega)]
    rw [List.length_set]
    exact hg.2 r.toNat (by omega)
  · rw [getD_set_ne _ _ _ _ _ (fun hh => hir hh.symm)]
    exact hg.2 i hi

lemma cell_setCell {g : List (List Bool)} {h w : Nat} (hg : gridWF g h w)
    (r c : Int) (hr0 : 0 ≤ r) (hrh : r < (h : Int)) (hc0 : 0 ≤ c) (hcw : c < (w : Int))
    (rq cq : Nat) :
    ((setCell g r c).getD rq []).getD cq false =
      (((g.getD rq []).getD cq false) || decide ((rq : Int) = r ∧ (cq : Int) = c)) := by
  unfold setCell
  rw [if_pos ⟨hr0, hc0⟩]
  by_cases hrq : rq = r.toNat
  · rw [hrq, getD_set_self _ _ _ _ (by rw [hg.1]; omega)]
    by_cases hcq : cq = c.toNat
    · rw [hcq, getD_set_self _ _ _ _ (by rw [hg.2 r.toNat (by omega)]; omega)]
      have hdec : decide ((((r.toNat : Nat) : Int) = r ∧ ((c.toNat : Nat) : Int) = c)) =
          true := by
        rw [decide_eq_true_eq]
        exact ⟨by omega, by omega⟩
      rw [hdec, Bool.or_true]
    · rw [getD_set_ne _ _ _ _ _ (fun hh => hcq hh.symm)]
      have hdec : decide ((((r.toNat : Nat) : Int) = r ∧ (cq : Int) = c)) = false := by
        rw [decide_eq_false_iff_not]
        omega
      rw [hdec, Bool.or_false]
  · rw [getD_set_ne _ _ _ _ _ (fun hh => hrq hh.symm)]
    have hdec : decide (((rq : Int) = r ∧ (cq : Int) = c)) = false := by
      rw [decide_eq_false_iff_not]
      omega
    rw [hdec, Bool.or_false]

lemma gridWF_reset (m : Model) (hwf : m.WF) : gridWF (Model.reset m).grid m.h m.w := by
  refine ⟨by simpa [Model.reset] using hwf.1, fun i hi => ?_⟩
  have hlen : i < m.grid.length := hwf.1 ▸ hi
  show ((m.grid.map (fun row => row.map (fun _ => false))).getD i []).length = m.w
  rw [List.getD_eq_getElem _ _ (by simpa using hlen)]
  rw [List.getElem_map]
  simp [hwf.2 _ (List.getElem_mem _)]

lemma cell_reset_false (m : Model) (r c : Nat) :
    (((Model.reset m).grid.getD r []).getD c false) = false :=
  getD_map_const_false m.grid r c

lemma foldl_setCell (oy ox : Int) (h w : Nat) (coords : List (Int × Int)) :
    ∀ g : List (List Bool), gridWF g h w →
    (∀ p ∈ coords, 0 ≤ oy + p.2 ∧ oy + p.2 < (h : Int) ∧
        0 ≤ ox + p.1 ∧ ox + p.1 < (w : Int)) →
    gridWF (coords.foldl (fun g p => setCell g (oy + p.2) (ox + p.1)) g) h w ∧
    ∀ rq cq : Nat,
      (((coords.foldl (fun g p => setCell g (oy + p.2) (ox + p.1)) g).getD rq []).getD
        cq false) =
      (((g.getD rq []).getD cq false) ||
        coords.any (fun p => decide ((rq : Int) = oy + p.2 ∧ (cq : Int) = ox + p.1))) := by
  induction coords with
  | nil =>
    intro g hg _
    exact ⟨hg, fun rq cq => by simp⟩
  | cons p ps ih =>
    intro g hg hb
    have hp := hb p (List.mem_cons_self p ps)
    have hg1 : gridWF (setCell g (oy + p.2) (ox + p.1)) h w :=
      gridWF_setCell hg _ _ hp.1 hp.2.1 hp.2.2.1 hp.2.2.2
    have hb1 : ∀ q ∈ ps, 0 ≤ oy + q.2 ∧ oy + q.2 < (h : Int) ∧
        0 ≤ ox + q.1 ∧ ox + q.1 < (w : Int) :=
      fun q hq => hb q (List.mem_cons_of_mem p hq)
    obtain ⟨hWF, hcell⟩ := ih (setCell g (oy + p.2) (ox + p.1)) hg1 hb1
    refine ⟨by simpa using hWF, fun rq cq => ?_⟩
    rw [List.foldl_cons]
    rw [hcell rq cq]
    rw [cell_setCell hg _ _ hp.1 hp.2.1 hp.2.2.1 hp.2.2.2]
    rw [List.any_cons, Bool.or_assoc]

/-- Claim C6: for a pattern `(coords, width, height)` whose offsets lie in
`[0,width) × [0,height)` and whose centered targets lie inside the grid,
`_apply_coords` resets the generation to 0 and produces a grid whose live
cells are exactly `(center_x + dx, center_y + dy)` for `(dx,dy)` in
`coords`, with `center_x = (W - width) // 2`, `center_y = (H - height) // 2`;
every other cell is dead. -/
theorem C6_apply_coords_correct (m : Model) (hwf : m.WF)
    (coords : List (Int × Int)) (width height : Int)
    (hin : ∀ p ∈ coords, 0 ≤ p.1 ∧ p.1 < width ∧ 0 ≤ p.2 ∧ p.2 < height)
    (hfit : ∀ p ∈ coords,
      0 ≤ centerY m height + p.2 ∧ centerY m height + p.2 < (m.h : Int) ∧
      0 ≤ centerX m width + p.1 ∧ centerX m width + p.1 < (m.w : Int)) :
    (m.apply_coords coords width height).generation = 0 ∧
    ∀ r c : Nat,
      ((m.apply_coords coords width height).cell r c = true ↔
        ∃ p ∈ coords, (r : Int) = centerY m height + p.2 ∧
          (c : Int) = centerX m width + p.1) := by
  refine ⟨rfl, fun r c => ?_⟩
  have hfold := (foldl_setCell (centerY m height) (centerX m width) m.h m.w coords
    (Model.reset m).grid (gridWF_reset m hwf) hfit).2 r c
  show ((coords.foldl
      (fun g p => setCell g (centerY m height + p.2) (centerX m width + p.1))
      (Model.reset m).grid).getD r []).getD c false = true ↔ _
  rw [hfold, cell_reset_false, Bool.false_or]
  simp [List.any_eq_true]

/-- Witness for C6: a 2-cell diagonal pattern on a 4×4 grid. -/
theorem C6_apply_coords_correct_witness :
    ((Model.init 4 4).WF ∧
     (∀ p ∈ ([(0, 0), (1, 1)] : List (Int × Int)),
        0 ≤ p.1 ∧ p.1 < 2 ∧ 0 ≤ p.2 ∧ p.2 < 2) ∧
     (∀ p ∈ ([(0, 0), (1, 1)] : List (Int × Int)),
        0 ≤ centerY (Model.init 4 4) 2 + p.2 ∧
        centerY (Model.init 4 4) 2 + p.2 < ((Model.init 4 4).h : Int) ∧
        0 ≤ centerX (Model.init 4 4) 2 + p.1 ∧
        centerX (Model.init 4 4) 2 + p.1 < ((Model.init 4 4).w : Int))) ∧
    (((Model.init 4 4).apply_coords [(0, 0), (1, 1)] 2 2).generation = 0 ∧
     ∀ r c : Nat,
       (((Model.init 4 4).apply_coords [(0, 0), (1, 1)] 2 2).cell r c = true ↔
         ∃ p ∈ ([(0, 0), (1, 1)] : List (Int × Int)),
           (r : Int) = centerY (Model.init 4 4) 2 + p.2 ∧
           (c : Int) = centerX (Model.init 4 4) 2 + p.1)) :=
  ⟨⟨by decide, by decide, by decide⟩,
   C6_apply_coords_correct (Model.init 4 4) (by decide) [(0, 0), (1, 1)] 2 2
     (by decide) (by decide)⟩

end GameOfLife

namespace GameOfLife

/-- Claim C8: with the default rule `survive = {2,3}`, `born = {3}`, on a
10×10 grid (large enough that the glider never interacts with itself
across the toroidal wrap), seeding the 5-cell glider pattern and calling
`tick()` four times yields exactly the seeded shape translated by one row
down and one column right. -/
theorem C8_glider_translates :
    (Model.init 10 10).survive = {2, 3} ∧ (Model.init 10 10).born = {3} ∧
    ((Model.init 10 10).glider.tick.tick.tick.tick).grid =
      (List.range 10).map (fun r => (List.range 10).map (fun c =>
        decide (1 ≤ r) && decide (1 ≤ c) &&
          (Model.init 10 10).glider.cell (r - 1) (c - 1))) := by
  refine ⟨rfl, rfl, ?_⟩
  decide

end GameOfLife
